import Mathlib

/-!
Verification development for the CTA model pipeline
(`convert.py`, `segment.py`, `filter.py`, `generate_net.py`, `optimize_net.py`).

The pipeline stages are shallowly embedded as pure Lean functions.  File
system state (which target paths already exist) and the interactive
overwrite prompt are passed in explicitly: `ex` tells, per component id,
whether its target file already exists, and `rp` gives the raw reply the
user would type at the prompt for that id.  Volumes are flattened voxel
grids (`List Nat`); the spatial arrangement of voxels is irrelevant to the
claims, which only concern label values, masks and counts.
-/

/-! ## String helpers (models of Python library functions used by the scripts) -/

/-- Model of Python `str.strip().lower()` as applied to the overwrite prompt
reply in `segment.py` and `convert.py`: drop leading and trailing whitespace,
then lowercase each character (ASCII lowering, which matches Python on the
ASCII replies the prompt expects). -/
def stripLower (s : String) : String :=
  ⟨(((s.toList.dropWhile Char.isWhitespace).reverse.dropWhile
      Char.isWhitespace).reverse).map Char.toLower⟩

/-- Model of `os.path.basename` for slash-separated paths: the part after the
last `/`. -/
def basename (p : String) : String :=
  ⟨(p.toList.splitOn '/').getLastD []⟩

/-- Model of `os.path.dirname`: everything before the last `/`. -/
def dirname (p : String) : String :=
  ⟨List.intercalate ['/'] ((p.toList.splitOn '/').dropLast)⟩

/-- Model of `os.path.join` as used by the scripts (the second argument is a
bare filename and the first a folder without a trailing slash). -/
def joinPath (a b : String) : String := a ++ "/" ++ b

/-- Model of `os.path.splitext(p)[0]`: everything before the last dot.  The
scripts apply it to paths whose directories contain no dots, which is the
situation this model renders. -/
def splitext_root (p : String) : String :=
  let parts := p.toList.splitOn '.'
  if parts.length ≤ 1 then p else ⟨List.intercalate ['.'] parts.dropLast⟩

/-- One fuel-bounded step list for the model of Python `str.replace`:
replace every non-overlapping occurrence of `pat` (scanning left to right)
by `repl`. -/
def replaceFuel (pat repl : List Char) : Nat → List Char → List Char
  | 0, s => s
  | _ + 1, [] => []
  | fuel + 1, c :: rest =>
    if pat.isPrefixOf (c :: rest) then
      repl ++ replaceFuel pat repl fuel ((c :: rest).drop pat.length)
    else
      c :: replaceFuel pat repl fuel rest

/-- Model of Python `str.replace(pat, repl)` (the scripts never call it with
an empty pattern). -/
def replaceAll (s pat repl : String) : String :=
  if pat.toList.isEmpty then s
  else ⟨replaceFuel pat.toList repl.toList s.toList.length s.toList⟩

/-! ## `segment.py`: `extract_connected_components` -/

/-- Model of `np.unique`: the distinct values of the list in ascending order,
built by insertion into a sorted list. -/
def insertSorted (x : Nat) : List Nat → List Nat
  | [] => [x]
  | y :: ys => if x ≤ y then x :: y :: ys else y :: insertSorted x ys

/-- `npUnique voxels` is the sorted list of distinct voxel values, the model
of `np.unique(np_array)` in `segment.py`. -/
def npUnique (voxels : List Nat) : List Nat :=
  voxels.foldl (fun acc v => if v ∈ acc then acc else insertSorted v acc) []

/-- The number of distinct nonzero labels of a volume (the quantity the spec
phrases the Extractor's contract in). -/
def distinctNonzeroLabels (voxels : List Nat) : Nat :=
  ((npUnique voxels).filter (fun v => v != 0)).length

/-- The binary mask the `itk.BinaryThresholdImageFilter` call in `segment.py`
produces for a given `component_id`: lower and upper threshold are both
`component_id`, inside value 1, outside value 0. -/
def componentMask (voxels : List Nat) (component_id : Nat) : List Nat :=
  voxels.map (fun v => if v = component_id then 1 else 0)

/-- `np.sum` over a mask: the foreground voxel count. -/
def voxelCount (mask : List Nat) : Nat := mask.sum

/-- The body of the `for component_id in range(1, unique_values.size + 1)`
loop of `segment.py`, processing the listed ids in order: build the binary
mask, discard it when its voxel count is below `component_size`, otherwise
consult the overwrite prompt when the target file exists (`ex id`), skipping
the component unless the stripped, lowercased reply is exactly `"y"`, and
otherwise emit `(id, mask)`. -/
def processComponents (voxels : List Nat) (component_size : Nat)
    (ex : Nat → Bool) (rp : Nat → String) : List Nat → List (Nat × List Nat)
  | [] => []
  | id :: rest =>
    let mask := componentMask voxels id
    if component_size ≤ voxelCount mask then
      if ex id then
        if stripLower (rp id) ≠ "y" then
          processComponents voxels component_size ex rp rest
        else
          (id, mask) :: processComponents voxels component_size ex rp rest
      else
        (id, mask) :: processComponents voxels component_size ex rp rest
    else
      processComponents voxels component_size ex rp rest

/-- Outcome of running `extract_connected_components`: the process exit
status and the list of components passed to the next stage on stdout
(each as `(component_id, binary mask)`). -/
structure ExtractOutcome where
  exitCode : Nat
  outputs : List (Nat × List Nat)
deriving DecidableEq, Repr

/-- Shallow embedding of `extract_connected_components` in `segment.py`
(pure control flow; reading the image and per-component I/O errors are not
modelled).  `unique_values = np.unique(...)`;
`number_components = len(unique_values) - 1` (computed in `Int`, as Python
subtraction does not truncate); if it is zero the script exits with status 1;
otherwise the loop runs over `range(1, unique_values.size + 1)`; finally, if
at least one component was kept the paths are printed and the script ends
with status 0, else it exits with status 0 and no output. -/
def extract_connected_components (voxels : List Nat) (component_size : Nat)
    (ex : Nat → Bool) (rp : Nat → String) : ExtractOutcome :=
  let unique_values := npUnique voxels
  let number_components : Int := (unique_values.length : Int) - 1
  if number_components = 0 then
    ⟨1, []⟩
  else
    let components :=
      processComponents voxels component_size ex rp
        (List.range' 1 unique_values.length)
    if 1 ≤ components.length then ⟨0, components⟩ else ⟨0, []⟩

/-! ## `convert.py`: `convert_nii_to_mha` -/

/-- Outcome of running `convert_nii_to_mha`: exit status, whether the target
file was written, and the path printed to stdout (if any). -/
structure ConvertOutcome where
  exitCode : Nat
  written : Bool
  printed : Option String
deriving DecidableEq, Repr

/-- Shallow embedding of `convert_nii_to_mha` in `convert.py` (read errors
not modelled).  `final_path` is built by string concatenation as in the
source; when the target exists (`final_exists`) the user is prompted and any
stripped, lowercased reply other than `"y"` makes the script exit with
status 0 without writing or printing; otherwise the image is written and
`final_path` printed. -/
def convert_nii_to_mha (input_nii_path output_mha_path : String)
    (final_exists : Bool) (reply : String) : ConvertOutcome :=
  let file_name := splitext_root (basename input_nii_path)
  let final_path := output_mha_path ++ "/" ++ file_name ++ ".mha"
  if final_exists && !(stripLower reply == "y") then
    ⟨0, false, none⟩
  else
    ⟨0, true, some final_path⟩

/-! ### Characterisation of the extraction loop -/

/-- A component id is accepted by the loop body iff its mask is large enough
and, when its target file exists, the prompt reply normalises to `"y"`. -/
def acceptsComponent (voxels : List Nat) (component_size : Nat)
    (ex : Nat → Bool) (rp : Nat → String) (id : Nat) : Bool :=
  decide (component_size ≤ voxelCount (componentMask voxels id)) &&
    (!ex id || (stripLower (rp id) == "y"))

theorem processComponents_eq_filter (voxels : List Nat) (cs : Nat)
    (ex : Nat → Bool) (rp : Nat → String) (ids : List Nat) :
    processComponents voxels cs ex rp ids =
      (ids.filter (acceptsComponent voxels cs ex rp)).map
        (fun id => (id, componentMask voxels id)) := by
  induction ids with
  | nil => rfl
  | cons id rest ih =>
    by_cases hsz : cs ≤ voxelCount (componentMask voxels id)
    · by_cases hex : ex id = true
      · by_cases hy : stripLower (rp id) = "y"
        · simp [processComponents, acceptsComponent, hsz, hex, hy, ih,
            List.filter_cons]
        · simp [processComponents, acceptsComponent, hsz, hex, hy, ih,
            List.filter_cons]
      · simp [processComponents, acceptsComponent, hsz, hex, ih,
          List.filter_cons]
    · simp [processComponents, acceptsComponent, hsz, ih, List.filter_cons]

theorem mem_processComponents (voxels : List Nat) (cs : Nat)
    (ex : Nat → Bool) (rp : Nat → String) (ids : List Nat) (L : Nat)
    (m : List Nat) :
    (L, m) ∈ processComponents voxels cs ex rp ids ↔
      (L ∈ ids ∧ m = componentMask voxels L ∧
        acceptsComponent voxels cs ex rp L = true) := by
  rw [processComponents_eq_filter]
  constructor
  · intro h
    rcases List.mem_map.mp h with ⟨id, hid, heq⟩
    rcases List.mem_filter.mp hid with ⟨hmem, hacc⟩
    cases heq
    exact ⟨hmem, rfl, hacc⟩
  · rintro ⟨hmem, rfl, hacc⟩
    exact List.mem_map.mpr ⟨L, List.mem_filter.mpr ⟨hmem, hacc⟩, rfl⟩

/-- When the initial emptiness check passes, the printed output list is
exactly what the loop accepted (the final `if` only distinguishes printing
from the empty exit, both with status 0). -/
theorem extract_outputs_eq (voxels : List Nat) (cs : Nat) (ex : Nat → Bool)
    (rp : Nat → String) (h : (npUnique voxels).length ≠ 1) :
    (extract_connected_components voxels cs ex rp).outputs =
      processComponents voxels cs ex rp
        (List.range' 1 (npUnique voxels).length) := by
  unfold extract_connected_components
  have hne : ((npUnique voxels).length : Int) - 1 ≠ 0 := by
    omega
  simp only [hne, if_false]
  by_cases hlen :
      1 ≤ (processComponents voxels cs ex rp
        (List.range' 1 (npUnique voxels).length)).length
  · simp [hlen]
  · have : processComponents voxels cs ex rp
        (List.range' 1 (npUnique voxels).length) = [] := by
      cases hp : processComponents voxels cs ex rp
          (List.range' 1 (npUnique voxels).length) with
      | nil => rfl
      | cons a l => rw [hp] at hlen; simp at hlen
    simp [hlen, this]

/-! ## Claims about `segment.py` and `convert.py` -/

/-- C1: at the failing input — a volume whose voxel values are `[0, 5]`, so
one distinct nonzero label (the value 5) — with `min_voxel_count = 0` and no
pre-existing files, the code emits two components, one for each id in
`range(1, unique_values.size + 1) = [1, 2]`, and both masks are all-zero:
no emitted component marks the voxels of label 5.  The spec's claim of one
component per distinct nonzero label fails because the loop runs over
positional ids, not over the distinct label values. -/
theorem C1_code_divergence :
    distinctNonzeroLabels [0, 5] = 1 ∧
    (extract_connected_components [0, 5] 0 (fun _ => false)
        (fun _ => "")).outputs = [(1, [0, 0]), (2, [0, 0])] ∧
    (extract_connected_components [0, 5] 0 (fun _ => false)
        (fun _ => "")).exitCode = 0 := by
  decide

/-- C5 counterexample: the volume `[3]` contains one distinct nonzero label,
yet extraction exits with status 1, because the emptiness check compares
`len(np.unique(volume)) - 1` with zero rather than counting nonzero labels.
This refutes "fails fatally exactly when the volume contains zero distinct
nonzero labels". -/
theorem C5_counterexample :
    distinctNonzeroLabels [3] = 1 ∧
    (extract_connected_components [3] 0 (fun _ => false)
        (fun _ => "")).exitCode = 1 := by
  decide

/-- C5 amended: component extraction exits with status 1 at the emptiness
check exactly when the volume holds a single distinct voxel value (for a
volume containing a background-0 voxel this coincides with having zero
nonzero labels); in every other case — in particular when all candidate
components are filtered out or skipped — it terminates with exit status 0. -/
theorem C5_fatal_iff_single_distinct_value (voxels : List Nat) (cs : Nat)
    (ex : Nat → Bool) (rp : Nat → String) :
    (extract_connected_components voxels cs ex rp).exitCode = 1 ↔
      (npUnique voxels).length = 1 := by
  by_cases h : (npUnique voxels).length = 1
  · have h0 : ((npUnique voxels).length : Int) - 1 = 0 := by omega
    simp [extract_connected_components, h0, h]
  · have h0 : ((npUnique voxels).length : Int) - 1 ≠ 0 := by omega
    simp only [extract_connected_components, h0, if_false]
    constructor
    · intro hc
      exfalso
      revert hc
      split <;> simp
    · intro hc
      exact absurd hc h

/-- C6: whenever a target file already exists and the stripped, lowercased
reply is not `"y"`, the Component Extractor skips exactly that component —
it never appears in the output list, while every other id is emitted iff it
passes the size filter and its own overwrite check — and the run goes on;
in Format Conversion the same decline makes the script exit with status 0
(non-fatal) without writing or printing the artifact. -/
theorem C6_decline_skips_single_item
    (voxels : List Nat) (cs : Nat) (ex : Nat → Bool) (rp : Nat → String)
    (L : Nat)
    (hL : L ∈ List.range' 1 (npUnique voxels).length)
    (hex : ex L = true)
    (hdecl : stripLower (rp L) ≠ "y")
    (inp outd r : String) (hr : stripLower r ≠ "y") :
    (∀ m, (L, m) ∉
        (extract_connected_components voxels cs ex rp).outputs) ∧
    (∀ M, M ≠ L →
      ((M, componentMask voxels M) ∈
          (extract_connected_components voxels cs ex rp).outputs ↔
        (M ∈ List.range' 1 (npUnique voxels).length ∧
          cs ≤ voxelCount (componentMask voxels M) ∧
          (ex M = true → stripLower (rp M) = "y")))) ∧
    (convert_nii_to_mha inp outd true r).exitCode = 0 ∧
    (convert_nii_to_mha inp outd true r).written = false ∧
    (convert_nii_to_mha inp outd true r).printed = none := by
  have hconv : convert_nii_to_mha inp outd true r = ⟨0, false, none⟩ := by
    simp [convert_nii_to_mha, hr]
  by_cases hlen : (npUnique voxels).length = 1
  · have hout : (extract_connected_components voxels cs ex rp).outputs
        = [] := by
      have h0 : ((npUnique voxels).length : Int) - 1 = 0 := by omega
      simp [extract_connected_components, h0]
    refine ⟨?_, ?_, by rw [hconv], by rw [hconv], by rw [hconv]⟩
    · intro m; rw [hout]; exact List.not_mem_nil _
    · intro M hM
      rw [hout]
      simp only [List.not_mem_nil, false_iff]
      rintro ⟨hMmem, -, -⟩
      rw [hlen] at hL hMmem
      simp [List.range'] at hL hMmem
      exact hM (hMmem.trans hL.symm)
  · have hout := extract_outputs_eq voxels cs ex rp hlen
    refine ⟨?_, ?_, by rw [hconv], by rw [hconv], by rw [hconv]⟩
    · intro m hm
      rw [hout] at hm
      rcases (mem_processComponents voxels cs ex rp _ L m).mp hm
        with ⟨-, -, hacc⟩
      simp [acceptsComponent, hex, hdecl] at hacc
    · intro M _
      rw [hout, mem_processComponents]
      constructor
      · rintro ⟨hmem, -, hacc⟩
        simp only [acceptsComponent, Bool.and_eq_true, Bool.or_eq_true,
          Bool.not_eq_true', decide_eq_true_eq, beq_iff_eq] at hacc
        refine ⟨hmem, hacc.1, fun hexM => ?_⟩
        rcases hacc.2 with h | h
        · rw [hexM] at h; cases h
        · exact h
      · rintro ⟨hmem, hsz, himp⟩
        refine ⟨hmem, rfl, ?_⟩
        simp only [acceptsComponent, Bool.and_eq_true, Bool.or_eq_true,
          Bool.not_eq_true', decide_eq_true_eq, beq_iff_eq]
        refine ⟨hsz, ?_⟩
        by_cases hexM : ex M = true
        · exact Or.inr (himp hexM)
        · exact Or.inl (by simpa using hexM)

/-- C6 witness: with volume `[0, 1, 2]`, size threshold 0, only id 2's
target existing and every reply `"no"`, component 2 is excluded from the
output while Format Conversion with reply `"no"` exits non-fatally without
writing. -/
theorem C6_decline_skips_single_item_witness :
    ((2, componentMask [0, 1, 2] 2) ∉
        (extract_connected_components [0, 1, 2] 0 (fun id => id == 2)
          (fun _ => "no")).outputs) ∧
    (convert_nii_to_mha "in.nii" "out" true "no").written = false :=
  ⟨(C6_decline_skips_single_item [0, 1, 2] 0 (fun id => id == 2)
      (fun _ => "no") 2 (by decide) (by decide) (by decide)
      "in.nii" "out" "no" (by decide)).1 _,
   (C6_decline_skips_single_item [0, 1, 2] 0 (fun id => id == 2)
      (fun _ => "no") 2 (by decide) (by decide) (by decide)
      "in.nii" "out" "no" (by decide)).2.2.2.1⟩

/-- C10: in both overwrite prompts the reply is stripped of surrounding
whitespace and lowercased, and consent is granted exactly when the result is
the string `"y"`: conversion writes over an existing target iff the
normalised reply is `"y"`, a component whose target exists is emitted iff
(besides the size filter) its normalised reply is `"y"`, the reply `"yes"`
normalises to `"yes"` and therefore declines, and `" Y\n"` normalises to
`"y"` and consents. -/
theorem C10_consent_requires_exact_y
    (inp outd r : String) (voxels : List Nat) (cs : Nat) (ex : Nat → Bool)
    (rp : Nat → String) (L : Nat)
    (h2 : 2 ≤ (npUnique voxels).length) :
    ((convert_nii_to_mha inp outd true r).written = true ↔
      stripLower r = "y") ∧
    ((L, componentMask voxels L) ∈
        (extract_connected_components voxels cs ex rp).outputs ↔
      (L ∈ List.range' 1 (npUnique voxels).length ∧
        cs ≤ voxelCount (componentMask voxels L) ∧
        (ex L = true → stripLower (rp L) = "y"))) ∧
    stripLower "yes" = "yes" ∧
    stripLower " Y\n" = "y" := by
  refine ⟨?_, ?_, by decide, by decide⟩
  · unfold convert_nii_to_mha
    by_cases hy : stripLower r = "y"
    · simp [hy]
    · simp [hy]
  · have hlen : (npUnique voxels).length ≠ 1 := by omega
    rw [extract_outputs_eq voxels cs ex rp hlen, mem_processComponents]
    constructor
    · rintro ⟨hmem, -, hacc⟩
      simp only [acceptsComponent, Bool.and_eq_true, Bool.or_eq_true,
        Bool.not_eq_true', decide_eq_true_eq, beq_iff_eq] at hacc
      refine ⟨hmem, hacc.1, fun hexL => ?_⟩
      rcases hacc.2 with h | h
      · rw [hexL] at h; cases h
      · exact h
    · rintro ⟨hmem, hsz, himp⟩
      refine ⟨hmem, rfl, ?_⟩
      simp only [acceptsComponent, Bool.and_eq_true, Bool.or_eq_true,
        Bool.not_eq_true', decide_eq_true_eq, beq_iff_eq]
      refine ⟨hsz, ?_⟩
      by_cases hexL : ex L = true
      · exact Or.inr (himp hexL)
      · exact Or.inl (by simpa using hexL)

/-- C10 witness: at a concrete volume and replies, conversion with reply
`"Y"` writes (its normalisation is `"y"`), and component 1 of `[0, 1, 2]`
with an existing target and reply `" y "` is emitted. -/
theorem C10_consent_requires_exact_y_witness :
    ((convert_nii_to_mha "a.nii" "b" true "Y").written = true ↔
      stripLower "Y" = "y") ∧
    ((1, componentMask [0, 1, 2] 1) ∈
        (extract_connected_components [0, 1, 2] 0 (fun _ => true)
          (fun _ => " y ")).outputs ↔
      (1 ∈ List.range' 1 (npUnique [0, 1, 2]).length ∧
        0 ≤ voxelCount (componentMask [0, 1, 2] 1) ∧
        ((fun _ => true) 1 = true → stripLower ((fun _ => " y ") 1) = "y"))) :=
  ⟨(C10_consent_requires_exact_y "a.nii" "b" "Y" [0, 1, 2] 0 (fun _ => true)
      (fun _ => " y ") 1 (by decide)).1,
   (C10_consent_requires_exact_y "a.nii" "b" "Y" [0, 1, 2] 0 (fun _ => true)
      (fun _ => " y ") 1 (by decide)).2.1⟩

/-! ## Mesh data model for `optimize_net.py`

Vertex positions are rational triples; triangles are index triples into the
point list, in winding order. -/

/-- A point or vector in 3-space, with exact rational coordinates. -/
abbrev Vec3 := ℚ × ℚ × ℚ

/-- A triangle as an ordered triple of vertex indices. -/
abbrev Tri := Nat × Nat × Nat

/-- A `vtkPolyData` triangle mesh: vertex positions and triangles. -/
structure Mesh where
  points : List Vec3
  polys : List Tri
deriving DecidableEq, Repr

/-- A mesh after `vtkPolyDataNormals`: geometry plus one (unnormalised)
normal vector per triangle. -/
structure MeshN where
  points : List Vec3
  polys : List Tri
  cellNormals : List Vec3
deriving DecidableEq, Repr

/-- Squared Euclidean distance between two points. -/
def distSq (p q : Vec3) : ℚ :=
  (p.1 - q.1) * (p.1 - q.1) + (p.2.1 - q.2.1) * (p.2.1 - q.2.1) +
    (p.2.2 - q.2.2) * (p.2.2 - q.2.2)

/-- Greedy point merge: fold over the points keeping a list of
representatives; each point maps to the first earlier representative within
`tol` (compared through squared distances) or becomes a new representative.
Returns the representatives and the old-index-to-new-index table. -/
def mergePoints (tol : ℚ) (pts : List Vec3) : List Vec3 × List Nat :=
  pts.foldl
    (fun (acc : List Vec3 × List Nat) p =>
      match acc.1.findIdx? (fun q => decide (distSq p q ≤ tol * tol)) with
      | some j => (acc.1, acc.2 ++ [j])
      | none => (acc.1 ++ [p], acc.2 ++ [acc.1.length]))
    ([], [])

/-- Modelled from the spec: `vtkCleanPolyData` (external VTK code, not under
`src/`) — "merge vertices within `merge_tolerance` (Euclidean); drop
now-unreferenced vertices".  This model merges greedily toward the first
in-tolerance representative, drops triangles made degenerate by the merge
(as the VTK filter discards degenerate cells), and renumbers the surviving
referenced points. -/
def clean_stage (tol : ℚ) (m : Mesh) : Mesh :=
  let merged := mergePoints tol m.points
  let reps := merged.1
  let remap := merged.2
  let tris := m.polys.map (fun t =>
    (remap.getD t.1 0, remap.getD t.2.1 0, remap.getD t.2.2 0))
  let tris2 := tris.filter (fun t =>
    !(t.1 == t.2.1 || t.1 == t.2.2 || t.2.1 == t.2.2))
  let used := (tris2.foldr (fun t acc => t.1 :: t.2.1 :: t.2.2 :: acc) []).dedup
  let keep := (List.range reps.length).filter (fun i => used.contains i)
  ⟨keep.map (fun i => reps.getD i (0, 0, 0)),
   tris2.map (fun t => (keep.indexOf t.1, keep.indexOf t.2.1, keep.indexOf t.2.2))⟩

/-- The three vertex indices of a triangle as a list. -/
def triVertList (t : Tri) : List Nat := [t.1, t.2.1, t.2.2]

/-- Modelled from the spec: two triangles are connected when they share an
edge, that is, two distinct vertices ("label connected triangle regions
(triangles connected iff sharing an edge, transitively)"). -/
def sharesEdge (a b : Tri) : Bool :=
  decide (2 ≤ (((triVertList a).dedup).filter
    (fun v => (triVertList b).contains v)).length)

/-- One round of label propagation: each triangle takes the least label
among itself and its edge-sharing neighbours. -/
def relabelStep (ts : List Tri) (lab : List Nat) : List Nat :=
  (List.range ts.length).map (fun i =>
    (List.range ts.length).foldl
      (fun acc j =>
        if sharesEdge (ts.getD i (0, 0, 0)) (ts.getD j (0, 0, 0)) then
          min acc (lab.getD j 0)
        else acc)
      (lab.getD i 0))

/-- Region labels of the triangles, computed by iterating the propagation
step once per triangle (enough rounds for any chain to stabilise). -/
def triLabels (ts : List Tri) : List Nat :=
  (relabelStep ts)^[ts.length] (List.range ts.length)

/-- Modelled from the spec: the connected regions of
`vtkConnectivityFilter` (external VTK code, not under `src/`), as the
triangle groups sharing a propagated label, in order of first appearance. -/
def regions (ts : List Tri) : List (List Tri) :=
  (triLabels ts).dedup.map (fun l =>
    ((ts.zip (triLabels ts)).filter (fun p => p.2 == l)).map Prod.fst)

/-- One `vtkAppendPolyData.AddInputData` step: concatenate a region's
polydata (which carries the full point set of the cleaned mesh) onto the
accumulator, offsetting its triangle indices past the points already
present. -/
def appendRegion (pts : List Vec3) (acc : Mesh) (r : List Tri) : Mesh :=
  ⟨acc.points ++ pts,
   acc.polys ++ r.map (fun t =>
     (t.1 + acc.points.length, t.2.1 + acc.points.length,
       t.2.2 + acc.points.length))⟩

/-- The artifact-removal stage of `improve_tin` (`optimize_net.py` lines
105–124): extract every connected region, keep those with at least
`artifact_tolerance` cells, and append the survivors.  Appending zero
regions yields the empty polydata; no error of any kind is raised. -/
def artifact_removal (artifact_tolerance : Nat) (m : Mesh) : Mesh :=
  ((regions m.polys).filter (fun r => decide (artifact_tolerance ≤ r.length))).foldl
    (appendRegion m.points) ⟨[], []⟩

/-- The vertices joined to vertex `i` by an edge of some triangle. -/
def vertNeighbors (polys : List Tri) (i : Nat) : List Nat :=
  (polys.foldr
    (fun t acc =>
      if t.1 = i then t.2.1 :: t.2.2 :: acc
      else if t.2.1 = i then t.1 :: t.2.2 :: acc
      else if t.2.2 = i then t.1 :: t.2.1 :: acc
      else acc)
    []).dedup

/-- Centroid of the listed points. -/
def centroidOf (pts : List Vec3) (ns : List Nat) : Vec3 :=
  ((ns.length : ℚ))⁻¹ • (ns.map (fun j => pts.getD j (0, 0, 0))).sum

/-- Pointwise smoothing pass: each vertex with a nonempty neighbourhood
moves toward the centroid of its edge-connected neighbours, scaled by the
relaxation factor; `i` is the index of the head of the remaining list. -/
def smoothPointsAux (rel : ℚ) (pts : List Vec3) (polys : List Tri) :
    Nat → List Vec3 → List Vec3
  | _, [] => []
  | i, p :: rest =>
    (if (vertNeighbors polys i).isEmpty then p
     else p + rel • (centroidOf pts (vertNeighbors polys i) - p)) ::
      smoothPointsAux rel pts polys (i + 1) rest

/-- One Laplacian smoothing iteration over the whole mesh. -/
def smoothOnce (rel : ℚ) (m : Mesh) : Mesh :=
  ⟨smoothPointsAux rel m.points m.polys 0 m.points, m.polys⟩

/-- Modelled from the spec: `vtkSmoothPolyDataFilter` (external VTK code,
not under `src/`) — "for `smooth_iterations` passes, move each vertex toward
the centroid of its edge-connected neighbors scaled by `smooth_relaxation`";
feature-edge smoothing is off in the source. -/
def smooth_stage (iterations : Nat) (rel : ℚ) (m : Mesh) : Mesh :=
  (smoothOnce rel)^[iterations] m

/-- Reverse a triangle's winding order. -/
def flipTri (t : Tri) : Tri := (t.1, t.2.2, t.2.1)

/-- The directed boundary edges of a triangle in winding order. -/
def dirEdges (t : Tri) : List (Nat × Nat) :=
  [(t.1, t.2.1), (t.2.1, t.2.2), (t.2.2, t.1)]

/-- A triangle is inconsistently oriented with the already-oriented ones
when it traverses some shared edge in the same direction as one of them. -/
def inconsistentWith (acc : List Tri) (t : Tri) : Bool :=
  (dirEdges t).any (fun e => acc.any (fun s => (dirEdges s).contains e))

/-- Orientation propagation step: append the next triangle, flipped when
inconsistent with the triangles oriented so far. -/
def orientStep (acc : List Tri) (t : Tri) : List Tri :=
  if inconsistentWith acc t then acc ++ [flipTri t] else acc ++ [t]

/-- Greedy consistent-orientation pass over all triangles. -/
def orientTris (ts : List Tri) : List Tri := ts.foldl orientStep []

/-- Unnormalised triangle normal `(b - a) × (c - a)`. -/
def triNormalVec (pts : List Vec3) (t : Tri) : Vec3 :=
  let a := pts.getD t.1 (0, 0, 0)
  let b := pts.getD t.2.1 (0, 0, 0)
  let c := pts.getD t.2.2 (0, 0, 0)
  let u := b - a
  let v := c - a
  (u.2.1 * v.2.2 - u.2.2 * v.2.1, u.2.2 * v.1 - u.1 * v.2.2,
    u.1 * v.2.1 - u.2.1 * v.1)

/-- Scalar triple product `a · (b × c)`. -/
def tripleProd (a b c : Vec3) : ℚ :=
  a.1 * (b.2.1 * c.2.2 - b.2.2 * c.2.1) -
    a.2.1 * (b.1 * c.2.2 - b.2.2 * c.1) +
    a.2.2 * (b.1 * c.2.1 - b.2.1 * c.1)

/-- Six times the signed volume enclosed by the triangles (divergence
theorem), the interior heuristic deciding global outward orientation. -/
def signedVolume6 (pts : List Vec3) (ts : List Tri) : ℚ :=
  (ts.map (fun t =>
    tripleProd (pts.getD t.1 (0, 0, 0)) (pts.getD t.2.1 (0, 0, 0))
      (pts.getD t.2.2 (0, 0, 0)))).sum

/-- The triangle list after normal unification: consistently oriented, then
globally flipped when the interior heuristic reports inward orientation. -/
def orientedFinal (m : Mesh) : List Tri :=
  if signedVolume6 m.points (orientTris m.polys) < 0 then
    (orientTris m.polys).map flipTri
  else orientTris m.polys

/-- Modelled from the spec: `vtkPolyDataNormals` with `ConsistencyOn`,
`AutoOrientNormalsOn`, `SplittingOff` (external VTK code, not under
`src/`) — "compute per-triangle normals, propagate consistent orientation
across connected triangles, auto-orient outward via an interior heuristic;
geometry unchanged".  Orientation propagation may reverse a triangle's
winding but never moves a vertex or changes which vertices form a
triangle. -/
def normals_stage (m : Mesh) : MeshN :=
  ⟨m.points, orientedFinal m, (orientedFinal m).map (triNormalVec m.points)⟩

/-! ## `optimize_net.py`: `improve_tin` -/

/-- The positional parameters of `improve_tin`. -/
structure TinParams where
  cleaning_tolerance : ℚ
  iterations : Nat
  relaxation : ℚ
  target_reduction : ℚ
  artifact_tolerance : Nat
  hole_tolerance : ℚ
deriving DecidableEq, Repr

/-- One input mesh of the run, with flags telling whether its first
`try` block (reading plus filter stages) or its second (writing) raises. -/
structure TinInput where
  mesh : Mesh
  readFails : Bool
  writeFails : Bool
deriving DecidableEq, Repr

/-- Outcome of the `improve_tin` run: exit status and the optimized meshes
successfully written, in order. -/
structure TinOutcome where
  exitCode : Nat
  written : List MeshN
deriving DecidableEq, Repr

/-- The per-mesh stage pipeline of `improve_tin`.  `vtkDecimatePro` and
`vtkFillHolesFilter` are external VTK algorithms whose behaviour the spec
leaves approximate ("exact resulting count is approximate, not
guaranteed"), so they are passed in as functions `dec` and `fill` of their
respective tolerance parameter; the remaining stages are the concrete
models above. -/
def optimize_mesh (dec fill : ℚ → Mesh → Mesh) (p : TinParams) (m : Mesh) :
    MeshN :=
  normals_stage (fill p.hole_tolerance
    (smooth_stage p.iterations p.relaxation
      (dec p.target_reduction
        (artifact_removal p.artifact_tolerance
          (clean_stage p.cleaning_tolerance m)))))

/-- Shallow embedding of the `for component in components` loop of
`improve_tin` (`optimize_net.py`): a failure in the first `try` block
(reading or any filter stage) logs and calls `sys.exit(1)`, as does a
failure in the write block; otherwise the optimized mesh is written and the
loop moves on.  Meshes written before a fatal failure remain written. -/
def improve_tin (dec fill : ℚ → Mesh → Mesh) (p : TinParams) :
    List TinInput → TinOutcome
  | [] => ⟨0, []⟩
  | job :: rest =>
    if job.readFails then ⟨1, []⟩
    else
      let out := optimize_mesh dec fill p job.mesh
      if job.writeFails then ⟨1, []⟩
      else
        let r := improve_tin dec fill p rest
        ⟨r.exitCode, out :: r.written⟩

/-- The `optimize_net.py` top level: `improve_tin` runs only when the stdin
list holds at least one component; an empty list ends the script normally
with no output. -/
def optimize_net_main (dec fill : ℚ → Mesh → Mesh) (p : TinParams)
    (components : List TinInput) : TinOutcome :=
  if 1 ≤ components.length then improve_tin dec fill p components
  else ⟨0, []⟩

/-! ## `filter.py` and `generate_net.py`: the inter-stage path contract -/

/-- Outcome of `anisotropic_diffusion_filtering`: exit status, paths of the
smoothed volumes written, and paths printed to stdout for the next stage. -/
structure FilterOutcome where
  exitCode : Nat
  written : List String
  printed : List String
deriving DecidableEq, Repr

/-- Shallow embedding of `anisotropic_diffusion_filtering` in `filter.py`
(the diffusion filter itself is an external ITK collaborator; only the
path handling and control flow are relevant here).  An empty input list
logs a warning and exits with status 1.  Per input `c` the smoothed volume
is written to `os.path.join(output_folder,
os.path.basename(c).replace('.mha', '_smoothed.mha'))`, while the path
printed to stdout is `c` itself. -/
def anisotropic_diffusion_filtering (component_files : List String)
    (output_folder : String) : FilterOutcome :=
  if component_files.length = 0 then ⟨1, [], []⟩
  else
    ⟨0,
     component_files.map (fun c =>
       joinPath output_folder (replaceAll (basename c) ".mha" "_smoothed.mha")),
     component_files⟩

/-- Outcome of `generate_mesh`: exit status, the smoothed-volume paths it
reads, the mesh files written, and the paths printed to stdout. -/
structure MeshGenOutcome where
  exitCode : Nat
  smoothedInputs : List String
  written : List String
  printed : List String
deriving DecidableEq, Repr

/-- Shallow embedding of the path handling of `generate_mesh` in
`generate_net.py` (contouring is an external collaborator): per received
path `c` it reads `os.path.splitext(c)[0] + "_smoothed.mha"`, writes the
mesh next to `c` with the `_smoothed.mha` suffix replaced by `.vtk`, and
prints that output path. -/
def generate_mesh (components : List String) : MeshGenOutcome :=
  let outFile := fun c =>
    joinPath (dirname c)
      (replaceAll (basename (splitext_root c ++ "_smoothed.mha"))
        "_smoothed.mha" ".vtk")
  ⟨0,
   components.map (fun c => splitext_root c ++ "_smoothed.mha"),
   components.map outFile,
   components.map outFile⟩

/-! ## Claims about `optimize_net.py`, `filter.py` and `generate_net.py` -/

/-- A placeholder implementation for the external decimation and
hole-filling collaborators: the identity on meshes (used to instantiate the
parametric stage functions at concrete inputs). -/
def trivialStage : ℚ → Mesh → Mesh := fun _ m => m

/-- The default parameters of `improve_tin` in `optimize_net.py`. -/
def pDefault : TinParams := ⟨1/4000, 10, 1/10, 1/100, 50, 10⟩

/-- A strip of five triangles, each sharing an edge with the next: one
connected region of 5 cells. -/
def chainMesh5 : Mesh :=
  ⟨[(0, 0, 0), (1, 0, 0), (0, 1, 0), (1, 1, 0), (2, 0, 0), (2, 1, 0),
    (3, 0, 0)],
   [(0, 1, 2), (1, 2, 3), (2, 3, 4), (3, 4, 5), (4, 5, 6)]⟩

/-- C2 counterexample: with two input meshes of which the first fails
during its read/filter block, the run exits with status 1 and writes
nothing — the second mesh is never processed.  This refutes "a failure
while processing one mesh during stages 1–5 aborts only that mesh and the
run continues with the next input mesh". -/
theorem C2_counterexample :
    (improve_tin trivialStage trivialStage pDefault
      [⟨⟨[], []⟩, true, false⟩, ⟨⟨[], []⟩, false, false⟩]).exitCode = 1 ∧
    (improve_tin trivialStage trivialStage pDefault
      [⟨⟨[], []⟩, true, false⟩, ⟨⟨[], []⟩, false, false⟩]).written = [] := by
  decide

/-- C2 amended: any per-mesh failure — in the read/filter block (stages
1–6) or in the write block — terminates the entire `improve_tin` run with
exit status 1; the meshes before the failing one are written, no later mesh
is processed. -/
theorem C2_mesh_failure_fatal_for_run (dec fill : ℚ → Mesh → Mesh)
    (p : TinParams) (pre post : List TinInput) (j : TinInput)
    (hpre : ∀ job ∈ pre, job.readFails = false ∧ job.writeFails = false)
    (hj : j.readFails = true ∨ j.writeFails = true) :
    (improve_tin dec fill p (pre ++ j :: post)).exitCode = 1 ∧
    (improve_tin dec fill p (pre ++ j :: post)).written.length =
      pre.length := by
  induction pre with
  | nil =>
    rcases hj with h | h
    · simp [improve_tin, h]
    · by_cases hr : j.readFails = true
      · simp [improve_tin, hr]
      · simp [improve_tin, hr, h]
  | cons a pre ih =>
    have ha := hpre a (List.mem_cons_self a pre)
    have hrest : ∀ job ∈ pre,
        job.readFails = false ∧ job.writeFails = false :=
      fun job hjob => hpre job (List.mem_cons_of_mem a hjob)
    have hp := ih hrest
    simp only [List.cons_append, improve_tin, ha.1, ha.2,
      Bool.false_eq_true, if_false]
    exact ⟨hp.1, by simp [hp.2]⟩

/-- C2 witness: one successful mesh followed by one whose read/filter block
fails gives exit status 1 with exactly the first mesh written. -/
theorem C2_mesh_failure_fatal_for_run_witness :
    (improve_tin trivialStage trivialStage pDefault
      [⟨⟨[], []⟩, false, false⟩, ⟨⟨[], []⟩, true, false⟩]).exitCode = 1 ∧
    (improve_tin trivialStage trivialStage pDefault
      [⟨⟨[], []⟩, false, false⟩, ⟨⟨[], []⟩, true, false⟩]).written.length
      = 1 :=
  C2_mesh_failure_fatal_for_run trivialStage trivialStage pDefault
    [⟨⟨[], []⟩, false, false⟩] [] ⟨⟨[], []⟩, true, false⟩
    (by decide) (Or.inl rfl)

unseal Rat.add Rat.mul Rat.sub Rat.inv in
/-- C3 counterexample: `chainMesh5` has a single 5-cell region, below the
default `artifact_tolerance = 50`, so no region survives; yet the run does
not fail — it exits with status 0 and writes an empty optimized mesh.
This refutes "fails with NoSurvivingGeometryError rather than continuing
with empty geometry": no such error exists in the code. -/
theorem C3_counterexample :
    (improve_tin trivialStage trivialStage pDefault
      [⟨chainMesh5, false, false⟩]).exitCode = 0 ∧
    (improve_tin trivialStage trivialStage pDefault
      [⟨chainMesh5, false, false⟩]).written = [⟨[], [], []⟩] := by
  decide

/-- C3 amended: when no connected region of the cleaned mesh reaches
`artifact_min_cells`, the appended survivor polydata is empty and the mesh
continues through the remaining stages as empty geometry: for any
decimation and hole-filling collaborators that keep the empty mesh empty,
the run exits with status 0 and writes an empty optimized mesh — no error
is raised. -/
theorem C3_zero_survivors_empty_mesh (dec fill : ℚ → Mesh → Mesh)
    (p : TinParams) (m : Mesh)
    (hall : ∀ r ∈ regions (clean_stage p.cleaning_tolerance m).polys,
      r.length < p.artifact_tolerance)
    (hdec : dec p.target_reduction ⟨[], []⟩ = ⟨[], []⟩)
    (hfill : fill p.hole_tolerance ⟨[], []⟩ = ⟨[], []⟩) :
    (improve_tin dec fill p [⟨m, false, false⟩]).exitCode = 0 ∧
    (improve_tin dec fill p [⟨m, false, false⟩]).written = [⟨[], [], []⟩] := by
  have har : artifact_removal p.artifact_tolerance
      (clean_stage p.cleaning_tolerance m) = ⟨[], []⟩ := by
    unfold artifact_removal
    have hfil : (regions (clean_stage p.cleaning_tolerance m).polys).filter
        (fun r => decide (p.artifact_tolerance ≤ r.length)) = [] := by
      rw [List.filter_eq_nil_iff]
      intro r hr
      simpa using Nat.not_le.mpr (hall r hr)
    rw [hfil]
    rfl
  have hsm : smooth_stage p.iterations p.relaxation (⟨[], []⟩ : Mesh)
      = ⟨[], []⟩ :=
    Function.iterate_fixed rfl p.iterations
  have hrun : improve_tin dec fill p [⟨m, false, false⟩]
      = ⟨0, [optimize_mesh dec fill p m]⟩ := by
    simp [improve_tin]
  rw [hrun]
  unfold optimize_mesh
  rw [har, hdec, hsm, hfill]
  exact ⟨rfl, rfl⟩

/-- Parameters with a small artifact threshold, for the C3 witness. -/
def pWitness : TinParams := ⟨1/4000, 3, 1/10, 1/100, 6, 10⟩

unseal Rat.add Rat.mul Rat.sub Rat.inv in
/-- C3 witness: `chainMesh5` under `artifact_tolerance = 6` (its single
region has 5 cells) exits with status 0 and writes the empty mesh. -/
theorem C3_zero_survivors_empty_mesh_witness :
    (improve_tin trivialStage trivialStage pWitness
      [⟨chainMesh5, false, false⟩]).exitCode = 0 ∧
    (improve_tin trivialStage trivialStage pWitness
      [⟨chainMesh5, false, false⟩]).written = [⟨[], [], []⟩] :=
  C3_zero_survivors_empty_mesh trivialStage trivialStage pWitness chainMesh5
    (by decide) rfl rfl

/-- C4 counterexample: for input `/data/Component1.mha` and output folder
`/out`, the smoothed volume is written to
`/out/Component1_smoothed.mha` but the path printed to the inter-stage
stdout stream is the original input path `/data/Component1.mha` — the
downstream stage does not receive the path of the artifact produced.  This
refutes "prints that smoothed volume's path to the inter-stage stdout
stream". -/
theorem C4_counterexample :
    (anisotropic_diffusion_filtering ["/data/Component1.mha"] "/out").written
      = ["/out/Component1_smoothed.mha"] ∧
    (anisotropic_diffusion_filtering ["/data/Component1.mha"] "/out").printed
      = ["/data/Component1.mha"] ∧
    (anisotropic_diffusion_filtering ["/data/Component1.mha"] "/out").printed
      ≠ (anisotropic_diffusion_filtering ["/data/Component1.mha"]
          "/out").written := by
  decide

/-- C4 amended: the Volume Smoother writes the smoothed volume named
`<basename>_smoothed.<ext>` in the output folder but prints each original
input path, unchanged, to the inter-stage stdout stream; the downstream
Isosurface stage compensates by reconstructing the smoothed artifact's path
from the received input path via the `_smoothed` suffix convention (which
matches the written artifact only when the output folder is the input
file's directory). -/
theorem C4_smoother_prints_input_path (files : List String) (folder : String)
    (h : files ≠ []) :
    (anisotropic_diffusion_filtering files folder).exitCode = 0 ∧
    (anisotropic_diffusion_filtering files folder).printed = files ∧
    (anisotropic_diffusion_filtering files folder).written =
      files.map (fun c =>
        joinPath folder (replaceAll (basename c) ".mha" "_smoothed.mha")) ∧
    (generate_mesh files).smoothedInputs =
      files.map (fun c => splitext_root c ++ "_smoothed.mha") := by
  have hlen : ¬ files.length = 0 := fun hc => h (List.length_eq_zero.mp hc)
  refine ⟨?_, ?_, ?_, rfl⟩ <;> simp [anisotropic_diffusion_filtering, hlen]

/-- C4 witness: at `/data/Component1.mha` with output folder `/data`, the
printed path is the input path and the written artifact carries the
`_smoothed` suffix. -/
theorem C4_smoother_prints_input_path_witness :
    (anisotropic_diffusion_filtering ["/data/Component1.mha"]
        "/data").exitCode = 0 ∧
    (anisotropic_diffusion_filtering ["/data/Component1.mha"]
        "/data").printed = ["/data/Component1.mha"] ∧
    (anisotropic_diffusion_filtering ["/data/Component1.mha"]
        "/data").written =
      ["/data/Component1.mha"].map (fun c =>
        joinPath "/data" (replaceAll (basename c) ".mha" "_smoothed.mha")) ∧
    (generate_mesh ["/data/Component1.mha"]).smoothedInputs =
      ["/data/Component1.mha"].map
        (fun c => splitext_root c ++ "_smoothed.mha") :=
  C4_smoother_prints_input_path ["/data/Component1.mha"] "/data" (by decide)

/-- C7 counterexample: the Volume Smoother stage, given the empty artifact
list, terminates with exit status 1 — not the successful exit status 0 the
claim asserts for every stage. -/
theorem C7_counterexample :
    (anisotropic_diffusion_filtering [] "/out").exitCode = 1 := by decide

/-- C7 amended: on an empty input artifact list the mesh-generation and
mesh-optimization stages end the run successfully (exit status 0) with no
output and without invoking the next stage, but the volume-smoothing stage
(`filter.py`) terminates fatally with exit status 1. -/
theorem C7_empty_input_stage_behaviour (folder : String)
    (dec fill : ℚ → Mesh → Mesh) (p : TinParams) :
    (anisotropic_diffusion_filtering [] folder).exitCode = 1 ∧
    (anisotropic_diffusion_filtering [] folder).printed = [] ∧
    (generate_mesh ([] : List String)).exitCode = 0 ∧
    (generate_mesh ([] : List String)).printed = [] ∧
    (optimize_net_main dec fill p []).exitCode = 0 ∧
    (optimize_net_main dec fill p []).written = [] :=
  ⟨rfl, rfl, rfl, rfl, rfl, rfl⟩

/-- Each point of a zero-relaxation smoothing pass stays in place. -/
theorem smoothPointsAux_zero (pts : List Vec3) (polys : List Tri)
    (i : Nat) (l : List Vec3) : smoothPointsAux 0 pts polys i l = l := by
  induction l generalizing i with
  | nil => rfl
  | cons p rest ih =>
    simp [smoothPointsAux, ih]

/-- A zero-relaxation smoothing iteration is the identity. -/
theorem smoothOnce_zero (m : Mesh) : smoothOnce 0 m = m := by
  cases m with
  | mk pts polys => simp [smoothOnce, smoothPointsAux_zero]

/-- C8: running the Laplacian smoothing stage with relaxation factor 0, or
with 0 iterations, returns the mesh unchanged — every vertex position (and
the connectivity) is exactly the input's. -/
theorem C8_smoothing_identity (m : Mesh) (its : Nat) (rel : ℚ)
    (h : rel = 0 ∨ its = 0) : smooth_stage its rel m = m := by
  rcases h with h | h
  · subst h
    exact Function.iterate_fixed (smoothOnce_zero m) its
  · subst h
    rfl

/-- C8 witness: five zero-relaxation smoothing iterations leave
`chainMesh5` unchanged. -/
theorem C8_smoothing_identity_witness :
    smooth_stage 5 0 chainMesh5 = chainMesh5 :=
  C8_smoothing_identity chainMesh5 5 0 (Or.inl rfl)

/-- The unordered vertex set of a triangle. -/
def triVertSet (t : Tri) : Finset Nat := {t.1, t.2.1, t.2.2}

/-- Flipping a triangle's winding keeps its vertex set. -/
theorem triVertSet_flip (t : Tri) : triVertSet (flipTri t) = triVertSet t := by
  simp [triVertSet, flipTri, Finset.pair_comm]

/-- Orientation propagation rewinds triangles but keeps, triangle by
triangle, the vertex sets. -/
theorem orientTris_map_vertSets (ts : List Tri) :
    (orientTris ts).map triVertSet = ts.map triVertSet := by
  suffices h : ∀ acc : List Tri,
      (ts.foldl orientStep acc).map triVertSet =
        acc.map triVertSet ++ ts.map triVertSet by
    simpa using h []
  induction ts with
  | nil => intro acc; simp [orientTris]
  | cons t rest ih =>
    intro acc
    rw [List.foldl_cons, ih (orientStep acc t)]
    unfold orientStep
    by_cases hc : inconsistentWith acc t = true
    · simp [hc, triVertSet_flip]
    · simp [hc]

/-- The final (auto-oriented) triangle list also keeps all vertex sets. -/
theorem orientedFinal_map_vertSets (m : Mesh) :
    (orientedFinal m).map triVertSet = m.polys.map triVertSet := by
  unfold orientedFinal
  split
  · rw [List.map_map]
    have hcomp : triVertSet ∘ flipTri = triVertSet := funext triVertSet_flip
    rw [hcomp, orientTris_map_vertSets]
  · exact orientTris_map_vertSets m.polys

/-- C9: the normal-unification stage leaves the geometry unchanged — the
vertex positions are exactly the input's and each triangle keeps its vertex
set (winding may be reversed to make orientation consistent) — while
attaching one normal vector per triangle. -/
theorem C9_normals_preserve_geometry (m : Mesh) :
    (normals_stage m).points = m.points ∧
    (normals_stage m).polys.map triVertSet = m.polys.map triVertSet ∧
    (normals_stage m).polys.length = m.polys.length ∧
    (normals_stage m).cellNormals.length = m.polys.length := by
  have hv := orientedFinal_map_vertSets m
  have hlen : (orientedFinal m).length = m.polys.length := by
    have := congrArg List.length hv
    simpa using this
  exact ⟨rfl, hv, hlen, by simpa [normals_stage] using hlen⟩
